import Mathlib

/-!
Unit-of-work coordinator (`pkg/uow/uow.go`)

A shallow embedding of the `Uow` type and its methods, followed by the
properties established about them.

Modelling conventions

* A Go pointer that may be nil is an `Option`: `none` is the nil pointer.
* A Go `error` is `Option GoError`: `none` is the nil error.
* The mutable receiver `u *Uow` is passed in and handed back explicitly.
* The database (`*sql.DB`, `*sql.Tx`) is an external collaborator.  Its answers
  are given by a `Driver`, which may depend on everything that happened so far
  (the `Trace`).  Every call that reaches the database is appended to the trace.
* A run-time panic (nil pointer dereference, write to a nil map) is the
  `Result.panics` outcome.
-/

namespace GoUow

/-- Identity of a non-nil `*sql.Tx`. -/
abbrev TxId := Nat

/-- Identity of a non-nil `*sql.DB`. -/
abbrev DBRef := Nat

/-- A `context.Context` value; the coordinator only passes it on to `BeginTx`. -/
abbrev Context := Nat

/-- An `interface{}` value produced by a repository factory. -/
abbrev Instance := Nat

/-- A non-nil Go `error` value.  `errorString` is what `errors.New` and a
`fmt.Errorf` without a wrapping verb produce; `custom` stands for a value of any
other error type (driver and application errors), told apart by a tag. -/
inductive GoError where
  | errorString (s : String)
  | custom (tag : Nat) (s : String)
  deriving DecidableEq, Repr

/-- The `Error()` method: the message of an error value. -/
def GoError.Error : GoError → String
  | .errorString s => s
  | .custom _ s => s

/-- The function `errors.New`. -/
def errorsNew (s : String) : GoError := .errorString s

/-- The text `fmt.Sprintf("rollback error: %v, original error: %v", errRb, err)`:
the verb `%v` prints a non-nil error through its `Error()` method. -/
def sprintfRollback (errRb err : GoError) : String :=
  "rollback error: " ++ errRb.Error ++ ", original error: " ++ err.Error

/-- The error `fmt.Errorf("transaction already started")` returned by `Do`. -/
def errTransactionAlreadyStarted : GoError := .errorString "transaction already started"

/-- The error `fmt.Errorf("no transaction started")` returned by `Rollback`. -/
def errNoTransactionStarted : GoError := .errorString "no transaction started"

/-- The type `RepositoryFactory func(tx *sql.Tx) interface{}`. -/
abbrev RepositoryFactory := Option TxId → Instance

/-- One interaction with the outside world, with the answer it received. -/
inductive Event where
  | beginTx (db : DBRef) (ctx : Context) (res : Except GoError TxId)
  | invoke
  | commit (tx : TxId) (res : Option GoError)
  | rollback (tx : TxId) (res : Option GoError)
  | other (label : String)

/-- The history of interactions, oldest first. -/
abbrev Trace := List Event

/-- The answers of the database: `u.DB.BeginTx(ctx, nil)`, `tx.Commit()` and
`tx.Rollback()`, each as a function of the history so far. -/
structure Driver where
  BeginTx : DBRef → Context → Trace → Except GoError TxId
  Commit : TxId → Trace → Option GoError
  Rollback : TxId → Trace → Option GoError

/-- Outcome of a Go call that either returns or panics. -/
inductive Result (α : Type) where
  | ret (a : α)
  | panics (reason : String)

/-- The struct `Uow`.  `Repositories` is a Go map: `none` is the nil map,
`some m` a map in which `m name = none` means that `name` has no entry. -/
structure Uow where
  DB : Option DBRef
  Tx : Option TxId
  Repositories : Option (String → Option RepositoryFactory)

/-- What a method with an `error` result hands back: the error, the receiver
after the call and the history after the call. -/
abbrev Ret := Option GoError × Uow × Trace

/-- The type `func(uow *Uow) error` of a unit-of-work function: it may change the
coordinator it is given, talk to the database, return an error or panic. -/
abbrev UnitOfWork := Uow → Trace → Result Ret

/-- The constructor `NewUow`: no transaction, an empty (non-nil) map. -/
def NewUow (_ctx : Context) (db : Option DBRef) : Uow :=
  { DB := db, Tx := none, Repositories := some (fun _ => none) }

/-- The method `Register`: `u.Repositories[name] = fc`; writing to a nil map panics. -/
def Register (u : Uow) (name : String) (fc : RepositoryFactory) : Result Uow :=
  match u.Repositories with
  | none => .panics "assignment to entry in nil map"
  | some m =>
    .ret { u with Repositories := some (fun k => if k = name then some fc else m k) }

/-- The method `UnRegister`: `delete(u.Repositories, name)`; deleting from a nil
map does nothing. -/
def UnRegister (u : Uow) (name : String) : Uow :=
  match u.Repositories with
  | none => u
  | some m => { u with Repositories := some (fun k => if k = name then none else m k) }

/-- The method `Rollback`. -/
def Rollback (d : Driver) (u : Uow) (t : Trace) : Ret :=
  match u.Tx with
  | none => (some errNoTransactionStarted, u, t)
  | some tx =>
    match d.Rollback tx t with
    | some err => (some err, u, t ++ [Event.rollback tx (some err)])
    | none => (none, { u with Tx := none }, t ++ [Event.rollback tx none])

/-- The method `CommitOrRollback`.  `u.Tx.Commit()` is called without a nil
check, so a nil handle is a nil pointer dereference. -/
def CommitOrRollback (d : Driver) (u : Uow) (t : Trace) : Result Ret :=
  match u.Tx with
  | none => .panics "invalid memory address or nil pointer dereference"
  | some tx =>
    match d.Commit tx t with
    | some err =>
      match Rollback d u (t ++ [Event.commit tx (some err)]) with
      | (some errRb, u1, t1) => .ret (some (errorsNew (sprintfRollback errRb err)), u1, t1)
      | (none, u1, t1) => .ret (some err, u1, t1)
    | none => .ret (none, { u with Tx := none }, t ++ [Event.commit tx none])

/-- The method `Do`.  The event `invoke` marks the call `fn(u)`. -/
def Do (d : Driver) (ctx : Context) (u : Uow) (t : Trace) (fn : UnitOfWork) : Result Ret :=
  match u.Tx with
  | some _ => .ret (some errTransactionAlreadyStarted, u, t)
  | none =>
    match u.DB with
    | none => .panics "invalid memory address or nil pointer dereference"
    | some db =>
      match d.BeginTx db ctx t with
      | .error err => .ret (some err, u, t ++ [Event.beginTx db ctx (.error err)])
      | .ok tx =>
        match fn { u with Tx := some tx } (t ++ [Event.beginTx db ctx (.ok tx), Event.invoke]) with
        | .panics r => .panics r
        | .ret (some err, u2, t2) =>
          match Rollback d u2 t2 with
          | (some errRb, u3, t3) => .ret (some (errorsNew (sprintfRollback errRb err)), u3, t3)
          | (none, u3, t3) => .ret (some err, u3, t3)
        | .ret (none, u2, t2) => CommitOrRollback d u2 t2

/-- Modelled from the spec: the error of the taxonomy entry
"RepositoryNotRegistered: GetRepository called with an unknown name".  The source
declares `GetRepository` in `UowInterface` only, so no message text exists. -/
def errRepositoryNotRegistered : GoError := .errorString "repository not registered"

/-- Modelled from the spec: the method `GetRepository`, which `UowInterface`
declares and `Uow` does not implement in the source.  Section 4.1: it "looks up
the factory for `name`; if found, invokes it with the current Transaction Handle
and returns the resulting Repository Instance; fails with a NotFound-style error
if no factory is registered under `name`, and fails with a
NoActiveTransaction-style error if no transaction is currently open".  The
look-up comes first, as in the sentence; reading a nil map finds nothing. -/
def GetRepository (u : Uow) (_ctx : Context) (name : String) : Except GoError Instance :=
  match (match u.Repositories with
         | none => none
         | some m => m name) with
  | none => .error errRepositoryNotRegistered
  | some fc =>
    match u.Tx with
    | none => .error errNoTransactionStarted
    | some tx => .ok (fc (some tx))

/-- A call to one of the two registry methods. -/
inductive RegistryCall where
  | register (name : String) (fc : RepositoryFactory)
  | unRegister (name : String)

/-- The name a registry call is about. -/
def RegistryCall.key : RegistryCall → String
  | .register name _ => name
  | .unRegister name => name

/-- Performs one registry call on the coordinator. -/
def applyCall (u : Uow) : RegistryCall → Result Uow
  | .register name fc => Register u name fc
  | .unRegister name => .ret (UnRegister u name)

/-- Performs a sequence of registry calls, first to last; a panic ends the run. -/
def applyCalls (u : Uow) : List RegistryCall → Result Uow
  | [] => .ret u
  | c :: cs =>
    match applyCall u c with
    | .panics r => .panics r
    | .ret u1 => applyCalls u1 cs

/-- The contents of a non-nil map `m` after a sequence of registry calls. -/
def mapAfter (m : String → Option RepositoryFactory) :
    List RegistryCall → String → Option RepositoryFactory
  | [] => m
  | .register name fc :: cs => mapAfter (fun k => if k = name then some fc else m k) cs
  | .unRegister name :: cs => mapAfter (fun k => if k = name then none else m k) cs

/-- In the words of the spec: `name` "was registered and not since unregistered"
by the sequence of calls. -/
def RegisteredNotSince (calls : List RegistryCall) (name : String) : Prop :=
  ∃ pre fc post, calls = pre ++ RegistryCall.register name fc :: post ∧
    ∀ c ∈ post, ∀ n, c = RegistryCall.unRegister n → n ≠ name

/-- The factory `fc` is the one in force for `name`: it was registered under
`name` and no later call is about `name`. -/
def InForce (calls : List RegistryCall) (name : String) (fc : RepositoryFactory) : Prop :=
  ∃ pre post, calls = pre ++ RegistryCall.register name fc :: post ∧
    ∀ c ∈ post, c.key ≠ name

/-- The message of `e` contains the message of `x`. -/
def GoError.mentions (e x : GoError) : Prop := x.Error.data <:+: e.Error.data

/-- A successful `Commit` call on some transaction. -/
def Event.isCommitOk : Event → Bool
  | .commit _ none => true
  | _ => false

/-- The unit-of-work function does not itself commit: whenever it returns, the
history it hands back is the one it received followed by events none of which is
a successful `Commit`. -/
def NoOwnCommit (fn : UnitOfWork) : Prop :=
  ∀ u t e u2 t2, fn u t = .ret (e, u2, t2) →
    ∃ ext, t2 = t ++ ext ∧ ∀ ev ∈ ext, ev.isCommitOk = false

/-- The entry stored under `name` in the registry; a nil map has no entries. -/
def Uow.entry (u : Uow) (name : String) : Option RepositoryFactory :=
  match u.Repositories with
  | none => none
  | some m => m name

/-- A `Commit` call on some transaction, whatever its answer. -/
def Event.isCommit : Event → Bool
  | .commit _ _ => true
  | _ => false

/-- A `Rollback` call on some transaction, whatever its answer. -/
def Event.isRollback : Event → Bool
  | .rollback _ _ => true
  | _ => false

/-- The unit-of-work function calls neither Commit nor Rollback, on the handle or
through the coordinator: whenever it returns, it hands back the handle it was
given, and the history it hands back is the one it received followed by events
none of which is a `Commit` or a `Rollback`. -/
def NoOwnCommitRollback (fn : UnitOfWork) : Prop :=
  ∀ u t e u2 t2, fn u t = .ret (e, u2, t2) →
    u2.Tx = u.Tx ∧
    ∃ ext, t2 = t ++ ext ∧ ∀ ev ∈ ext, ev.isCommit = false ∧ ev.isRollback = false

/-- The unit-of-work function calls neither Register nor UnRegister: whenever it
returns, it hands back the registry it was given. -/
def KeepsRegistry (fn : UnitOfWork) : Prop :=
  ∀ u t e u2 t2, fn u t = .ret (e, u2, t2) → u2.Repositories = u.Repositories

/-! Concrete collaborators used in the examples -/

/-- A database whose pool refuses to open a transaction, with error `b`. -/
def refusingDriver (b : GoError) : Driver :=
  { BeginTx := fun _ _ _ => .error b, Commit := fun _ _ => none, Rollback := fun _ _ => none }

/-- A connection error of the pool. -/
def errConn : GoError := .custom 4 "connection refused"

/-- The unit-of-work function `func(u *Uow) error { u.Rollback(); return nil }`:
it rolls back through the coordinator it is passed and reports success. -/
def fnRollbackThenNil (d : Driver) : UnitOfWork := fun u t =>
  match Rollback d u t with
  | (_, u1, t1) => .ret (none, u1, t1)

/-- A database that always opens transaction 1 and answers every `Commit` with
`c` and every `Rollback` with `r`. -/
def scriptedDriver (c r : Option GoError) : Driver :=
  { BeginTx := fun _ _ _ => .ok 1, Commit := fun _ _ => c, Rollback := fun _ _ => r }

/-- A unit-of-work function that touches nothing and returns `e`. -/
def fnReturn (e : Option GoError) : UnitOfWork := fun u t => .ret (e, u, t)

/-- An application error. -/
def errApp : GoError := .custom 1 "insert failed"

/-- A commit error of the driver. -/
def errCommit : GoError := .custom 2 "commit failed"

/-- A rollback error of the driver. -/
def errRb : GoError := .custom 3 "conn lost"

/-- A factory: the repository it builds is numbered after the transaction. -/
def usersFactory : RepositoryFactory := fun tx => 100 + tx.getD 0

/-- A factory that ignores the transaction. -/
def ordersFactory : RepositoryFactory := fun _ => 5

/-- A sequence of registry calls: "users" ends registered with `usersFactory`,
"orders" ends unregistered. -/
def sampleCalls : List RegistryCall :=
  [.register "users" ordersFactory, .register "orders" ordersFactory,
   .register "users" usersFactory, .unRegister "orders"]

/-- A freshly built coordinator on pool 7. -/
def idleUow : Uow := NewUow 0 (some 7)

/-- The coordinator `idleUow` with transaction 1 open. -/
def activeUow : Uow := { idleUow with Tx := some 1 }

/-- A coordinator with transaction 1 open whose registry is what `sampleCalls`
leave behind on a freshly built coordinator. -/
def sampleUow : Uow :=
  { DB := some 7, Tx := some 1, Repositories := some (mapAfter (fun _ => none) sampleCalls) }

/-- The history after `Do` on pool 7 began transaction 1 and called the function. -/
def begunTrace : Trace := [Event.beginTx 7 0 (.ok 1), Event.invoke]

/-! Properties -/

/-- Shape of `Do` once the transaction is begun: everything is decided by what
the unit-of-work function hands back. -/
theorem Do_begun (d : Driver) (ctx : Context) (u : Uow) (t : Trace) (fn : UnitOfWork)
    (db : DBRef) (tx : TxId) (hidle : u.Tx = none) (hdb : u.DB = some db)
    (hbegin : d.BeginTx db ctx t = .ok tx) :
    Do d ctx u t fn =
      match fn { u with Tx := some tx } (t ++ [Event.beginTx db ctx (.ok tx), Event.invoke]) with
      | .panics r => .panics r
      | .ret (some err, u2, t2) =>
        match Rollback d u2 t2 with
        | (some errRb, u3, t3) => .ret (some (errorsNew (sprintfRollback errRb err)), u3, t3)
        | (none, u3, t3) => .ret (some err, u3, t3)
      | .ret (none, u2, t2) => CommitOrRollback d u2 t2 := by
  simp only [Do, hidle, hdb, hbegin]

/-- The combined message contains the message of the rollback error. -/
theorem sprintfRollback_has_rollback (errRb err : GoError) :
    errRb.Error.data <:+: (sprintfRollback errRb err).data := by
  refine ⟨"rollback error: ".data, (", original error: " ++ err.Error).data, ?_⟩
  simp [sprintfRollback, String.data_append, List.append_assoc]

/-- The combined message contains the message of the original error. -/
theorem sprintfRollback_has_original (errRb err : GoError) :
    err.Error.data <:+: (sprintfRollback errRb err).data := by
  refine ⟨("rollback error: " ++ errRb.Error ++ ", original error: ").data, [], ?_⟩
  simp [sprintfRollback, String.data_append, List.append_assoc]

/-- C1: on an Idle coordinator, when BeginTx succeeds, the unit-of-work function
returns nil leaving the begun handle in place, and Commit on that handle
succeeds, `Do` returns nil and the coordinator is Idle afterwards. -/
theorem Do_commit_ok (d : Driver) (ctx : Context) (u : Uow) (t : Trace) (fn : UnitOfWork)
    (db : DBRef) (tx : TxId) (u2 : Uow) (t2 : Trace)
    (hidle : u.Tx = none) (hdb : u.DB = some db)
    (hbegin : d.BeginTx db ctx t = .ok tx)
    (hfn : fn { u with Tx := some tx } (t ++ [Event.beginTx db ctx (.ok tx), Event.invoke])
      = .ret (none, u2, t2))
    (hkeep : u2.Tx = some tx)
    (hcommit : d.Commit tx t2 = none) :
    ∃ u3, Do d ctx u t fn = .ret (none, u3, t2 ++ [Event.commit tx none]) ∧ u3.Tx = none := by
  refine ⟨{ u2 with Tx := none }, ?_, rfl⟩
  rw [Do_begun d ctx u t fn db tx hidle hdb hbegin, hfn]
  simp only [CommitOrRollback, hkeep, hcommit]

/-- C1 at a concrete run: pool 7, a function that does nothing, a commit that succeeds. -/
theorem Do_commit_ok_witness :
    ∃ u3, Do (scriptedDriver none none) 0 idleUow [] (fnReturn none)
      = .ret (none, u3, begunTrace ++ [Event.commit 1 none]) ∧ u3.Tx = none :=
  Do_commit_ok (scriptedDriver none none) 0 idleUow [] (fnReturn none) 7 1 activeUow begunTrace
    rfl rfl rfl rfl rfl rfl

/-- C2: on an Idle coordinator, when BeginTx succeeds, the unit-of-work function
returns the error E and the rollback that `Do` then attempts succeeds, `Do`
returns exactly E. -/
theorem Do_fn_error_rollback_ok (d : Driver) (ctx : Context) (u : Uow) (t : Trace)
    (fn : UnitOfWork) (db : DBRef) (tx : TxId) (E : GoError) (u2 u3 : Uow) (t2 t3 : Trace)
    (hidle : u.Tx = none) (hdb : u.DB = some db)
    (hbegin : d.BeginTx db ctx t = .ok tx)
    (hfn : fn { u with Tx := some tx } (t ++ [Event.beginTx db ctx (.ok tx), Event.invoke])
      = .ret (some E, u2, t2))
    (hrb : Rollback d u2 t2 = (none, u3, t3)) :
    Do d ctx u t fn = .ret (some E, u3, t3) := by
  rw [Do_begun d ctx u t fn db tx hidle hdb hbegin, hfn]
  simp only [hrb]

/-- C2 at a concrete run: the function fails with `errApp`, the rollback succeeds. -/
theorem Do_fn_error_rollback_ok_witness :
    Do (scriptedDriver none none) 0 idleUow [] (fnReturn (some errApp))
      = .ret (some errApp, idleUow, begunTrace ++ [Event.rollback 1 none]) :=
  Do_fn_error_rollback_ok (scriptedDriver none none) 0 idleUow [] (fnReturn (some errApp)) 7 1
    errApp activeUow idleUow begunTrace (begunTrace ++ [Event.rollback 1 none])
    rfl rfl rfl rfl rfl

/-- C3: on an Idle coordinator, when BeginTx succeeds, the unit-of-work function
returns the error E and the rollback that `Do` attempts fails with R, `Do`
returns a non-nil error whose message contains the message of R and the message
of E. -/
theorem Do_fn_error_rollback_fails (d : Driver) (ctx : Context) (u : Uow) (t : Trace)
    (fn : UnitOfWork) (db : DBRef) (tx : TxId) (E R : GoError) (u2 u3 : Uow) (t2 t3 : Trace)
    (hidle : u.Tx = none) (hdb : u.DB = some db)
    (hbegin : d.BeginTx db ctx t = .ok tx)
    (hfn : fn { u with Tx := some tx } (t ++ [Event.beginTx db ctx (.ok tx), Event.invoke])
      = .ret (some E, u2, t2))
    (hrb : Rollback d u2 t2 = (some R, u3, t3)) :
    ∃ e, Do d ctx u t fn = .ret (some e, u3, t3) ∧ e.mentions R ∧ e.mentions E := by
  refine ⟨errorsNew (sprintfRollback R E), ?_, sprintfRollback_has_rollback R E,
    sprintfRollback_has_original R E⟩
  rw [Do_begun d ctx u t fn db tx hidle hdb hbegin, hfn]
  simp only [hrb]

/-- C3 at a concrete run: the function fails with `errApp`, the rollback with `errRb`. -/
theorem Do_fn_error_rollback_fails_witness :
    ∃ e, Do (scriptedDriver none (some errRb)) 0 idleUow [] (fnReturn (some errApp))
        = .ret (some e, activeUow, begunTrace ++ [Event.rollback 1 (some errRb)])
      ∧ e.mentions errRb ∧ e.mentions errApp :=
  Do_fn_error_rollback_fails (scriptedDriver none (some errRb)) 0 idleUow []
    (fnReturn (some errApp)) 7 1 errApp errRb activeUow activeUow begunTrace
    (begunTrace ++ [Event.rollback 1 (some errRb)]) rfl rfl rfl rfl rfl

/-- C4: on an Idle coordinator, when BeginTx succeeds, the unit-of-work function
returns nil and Commit (on the handle then in place) fails with C: (a) when the
subsequent rollback succeeds `Do` returns exactly C; (b) when that rollback fails
with R `Do` returns a non-nil error whose message contains those of C and R. -/
theorem Do_commit_fails (d : Driver) (ctx : Context) (u : Uow) (t : Trace)
    (fn : UnitOfWork) (db : DBRef) (tx tx2 : TxId) (C : GoError) (u2 : Uow) (t2 : Trace)
    (hidle : u.Tx = none) (hdb : u.DB = some db)
    (hbegin : d.BeginTx db ctx t = .ok tx)
    (hfn : fn { u with Tx := some tx } (t ++ [Event.beginTx db ctx (.ok tx), Event.invoke])
      = .ret (none, u2, t2))
    (htx : u2.Tx = some tx2)
    (hcommit : d.Commit tx2 t2 = some C) :
    (∀ u3 t3, Rollback d u2 (t2 ++ [Event.commit tx2 (some C)]) = (none, u3, t3) →
      Do d ctx u t fn = .ret (some C, u3, t3)) ∧
    (∀ R u3 t3, Rollback d u2 (t2 ++ [Event.commit tx2 (some C)]) = (some R, u3, t3) →
      ∃ e, Do d ctx u t fn = .ret (some e, u3, t3) ∧ e.mentions C ∧ e.mentions R) := by
  rw [Do_begun d ctx u t fn db tx hidle hdb hbegin, hfn]
  constructor
  · intro u3 t3 hrb
    simp only [CommitOrRollback, htx, hcommit, hrb]
  · intro R u3 t3 hrb
    refine ⟨errorsNew (sprintfRollback R C), ?_, sprintfRollback_has_original R C,
      sprintfRollback_has_rollback R C⟩
    simp only [CommitOrRollback, htx, hcommit, hrb]

/-- C4 at two concrete runs: the commit fails with `errCommit`; the rollback
succeeds in the first run and fails with `errRb` in the second. -/
theorem Do_commit_fails_witness :
    Do (scriptedDriver (some errCommit) none) 0 idleUow [] (fnReturn none)
      = .ret (some errCommit, idleUow,
          begunTrace ++ [Event.commit 1 (some errCommit)] ++ [Event.rollback 1 none]) ∧
    ∃ e, Do (scriptedDriver (some errCommit) (some errRb)) 0 idleUow [] (fnReturn none)
        = .ret (some e, activeUow,
            begunTrace ++ [Event.commit 1 (some errCommit)] ++ [Event.rollback 1 (some errRb)])
      ∧ e.mentions errCommit ∧ e.mentions errRb :=
  ⟨(Do_commit_fails (scriptedDriver (some errCommit) none) 0 idleUow [] (fnReturn none) 7 1 1
      errCommit activeUow begunTrace rfl rfl rfl rfl rfl rfl).1 _ _ rfl,
   (Do_commit_fails (scriptedDriver (some errCommit) (some errRb)) 0 idleUow [] (fnReturn none)
      7 1 1 errCommit activeUow begunTrace rfl rfl rfl rfl rfl rfl).2 errRb _ _ rfl⟩

/-- C5: on an Active coordinator `Do` fails with the "transaction already started"
error whatever the unit-of-work function is, and nothing else happens: the
history is unchanged (no BeginTx, no call of the function, no Commit, no
Rollback) and the coordinator (handle, registry, pool) is exactly as before. -/
theorem Do_active (d : Driver) (ctx : Context) (u : Uow) (t : Trace) (fn : UnitOfWork)
    (hactive : u.Tx ≠ none) :
    Do d ctx u t fn = .ret (some errTransactionAlreadyStarted, u, t) := by
  cases htx : u.Tx with
  | none => exact absurd htx hactive
  | some tx => simp only [Do, htx]

/-- C5 at a concrete run: transaction 1 is open and the function given would
panic if it were called. -/
theorem Do_active_witness :
    activeUow.Tx ≠ none ∧
    Do (scriptedDriver none none) 0 activeUow [] (fun _ _ => .panics "called")
      = .ret (some (.errorString "transaction already started"), activeUow, []) :=
  ⟨by simp [activeUow], Do_active (scriptedDriver none none) 0 activeUow []
    (fun _ _ => .panics "called") (by simp [activeUow])⟩

/-- The method `Rollback` only ever appends to the history, and never a
successful `Commit`. -/
theorem Rollback_trace (d : Driver) (u : Uow) (t : Trace) :
    ∃ ext, (Rollback d u t).2.2 = t ++ ext ∧ ∀ ev ∈ ext, ev.isCommitOk = false := by
  cases htx : u.Tx with
  | none => exact ⟨[], by simp [Rollback, htx], by simp⟩
  | some tx =>
    cases hr : d.Rollback tx t with
    | none =>
      exact ⟨[Event.rollback tx none], by simp [Rollback, htx, hr], by simp [Event.isCommitOk]⟩
    | some err =>
      exact ⟨[Event.rollback tx (some err)], by simp [Rollback, htx, hr],
        by simp [Event.isCommitOk]⟩

/-- The method `Rollback` either clears the handle and returns nil, or returns an
error and leaves the coordinator as it was. -/
theorem Rollback_state (d : Driver) (u : Uow) (t : Trace) :
    ((Rollback d u t).1 = none → (Rollback d u t).2.1.Tx = none) ∧
    ((Rollback d u t).1 ≠ none → (Rollback d u t).2.1 = u) := by
  cases htx : u.Tx with
  | none => simp [Rollback, htx]
  | some tx => cases hr : d.Rollback tx t <;> simp [Rollback, htx, hr]

/-- When `CommitOrRollback` returns an error, what it appended to the history
holds no successful `Commit`. -/
theorem CommitOrRollback_error_trace (d : Driver) (u : Uow) (t : Trace)
    (e : GoError) (u1 : Uow) (t1 : Trace)
    (h : CommitOrRollback d u t = .ret (some e, u1, t1)) :
    ∃ ext, t1 = t ++ ext ∧ ∀ ev ∈ ext, ev.isCommitOk = false := by
  unfold CommitOrRollback at h
  cases htx : u.Tx with
  | none => simp [htx] at h
  | some tx =>
    cases hc : d.Commit tx t with
    | none => simp [htx, hc] at h
    | some err =>
      obtain ⟨ext, hext, hno⟩ := Rollback_trace d u (t ++ [Event.commit tx (some err)])
      refine ⟨Event.commit tx (some err) :: ext, ?_, ?_⟩
      · simp only [htx, hc] at h
        rcases hr : Rollback d u (t ++ [Event.commit tx (some err)]) with ⟨r, u3, t3⟩
        rw [hr] at h hext
        cases r <;> simp at h <;> simp at hext <;> rw [← h.2.2, hext]
      · intro ev hev
        rcases List.mem_cons.mp hev with rfl | hev
        · rfl
        · exact hno ev hev

/-- C7: when the unit-of-work function does not itself commit and `Do` returns a
non-nil error, no `Commit` call succeeded during that `Do`: the history after the
call is the history before it followed by events none of which is a successful
`Commit`.  The coordinator need not even be Idle for this. -/
theorem Do_error_not_committed (d : Driver) (ctx : Context) (u : Uow) (t : Trace)
    (fn : UnitOfWork) (e : GoError) (u1 : Uow) (t1 : Trace)
    (hfn : NoOwnCommit fn)
    (hdo : Do d ctx u t fn = .ret (some e, u1, t1)) :
    ∃ ext, t1 = t ++ ext ∧ ∀ ev ∈ ext, ev.isCommitOk = false := by
  cases htx : u.Tx with
  | some tx =>
    simp only [Do, htx, Result.ret.injEq, Prod.mk.injEq] at hdo
    exact ⟨[], by simp [hdo.2.2], by simp⟩
  | none =>
    cases hdb : u.DB with
    | none => simp [Do, htx, hdb] at hdo
    | some db =>
      cases hb : d.BeginTx db ctx t with
      | error err =>
        simp only [Do, htx, hdb, hb, Result.ret.injEq, Prod.mk.injEq] at hdo
        exact ⟨[Event.beginTx db ctx (.error err)], hdo.2.2.symm, by simp [Event.isCommitOk]⟩
      | ok tx =>
        rw [Do_begun d ctx u t fn db tx htx hdb hb] at hdo
        cases hf : fn { u with Tx := some tx }
            (t ++ [Event.beginTx db ctx (.ok tx), Event.invoke]) with
        | panics r => simp [hf] at hdo
        | ret out =>
          obtain ⟨r, u2, t2⟩ := out
          obtain ⟨ext, hext, hno⟩ := hfn _ _ _ _ _ hf
          have hpre : ∀ ev ∈ [Event.beginTx db ctx (.ok tx), Event.invoke] ++ ext,
              ev.isCommitOk = false := by
            intro ev hev
            rcases List.mem_append.mp hev with h | h
            · simp at h
              rcases h with rfl | rfl <;> rfl
            · exact hno ev h
          cases r with
          | some err =>
            simp only [hf] at hdo
            obtain ⟨ext2, hext2, hno2⟩ := Rollback_trace d u2 t2
            have ht1 : t1 = (Rollback d u2 t2).2.2 := by
              rcases hr : Rollback d u2 t2 with ⟨r3, u3, t3⟩
              rw [hr] at hdo
              cases r3 <;> simp at hdo <;> exact hdo.2.2.symm
            refine ⟨[Event.beginTx db ctx (.ok tx), Event.invoke] ++ ext ++ ext2, ?_, ?_⟩
            · rw [ht1, hext2, hext]
              simp
            · intro ev hev
              rcases List.mem_append.mp hev with h | h
              · exact hpre ev h
              · exact hno2 ev h
          | none =>
            simp only [hf] at hdo
            obtain ⟨ext2, hext2, hno2⟩ := CommitOrRollback_error_trace d u2 t2 e u1 t1 hdo
            refine ⟨[Event.beginTx db ctx (.ok tx), Event.invoke] ++ ext ++ ext2, ?_, ?_⟩
            · rw [hext2, hext]
              simp
            · intro ev hev
              rcases List.mem_append.mp hev with h | h
              · exact hpre ev h
              · exact hno2 ev h

/-- C7 at a concrete run: the commit fails, the rollback succeeds, `Do` returns
the commit error and the history holds no successful `Commit`. -/
theorem Do_error_not_committed_witness :
    NoOwnCommit (fnReturn none) ∧
    Do (scriptedDriver (some errCommit) none) 0 idleUow [] (fnReturn none)
      = .ret (some errCommit, idleUow,
          begunTrace ++ [Event.commit 1 (some errCommit)] ++ [Event.rollback 1 none]) ∧
    ∃ ext, begunTrace ++ [Event.commit 1 (some errCommit)] ++ [Event.rollback 1 none]
        = [] ++ ext ∧ ∀ ev ∈ ext, ev.isCommitOk = false :=
  have hfn : NoOwnCommit (fnReturn none) := by
    intro u t e u2 t2 h
    simp only [fnReturn, Result.ret.injEq, Prod.mk.injEq] at h
    exact ⟨[], by simp [h.2.2], by simp⟩
  ⟨hfn, rfl, Do_error_not_committed (scriptedDriver (some errCommit) none) 0 idleUow []
    (fnReturn none) errCommit idleUow _ hfn rfl⟩

/-- C8, as stated, fails: on a freshly built coordinator the function returns
`errApp`, the rollback that `Do` attempts fails with `errRb`, and after `Do` has
returned the handle of transaction 1 is still in place. -/
theorem Do_rollback_failure_stays_active :
    idleUow.Tx = none ∧
    fnReturn (some errApp) activeUow begunTrace = .ret (some errApp, activeUow, begunTrace) ∧
    Do (scriptedDriver none (some errRb)) 0 idleUow [] (fnReturn (some errApp))
      = .ret (some (.errorString "rollback error: conn lost, original error: insert failed"),
          { DB := some 7, Tx := some 1, Repositories := idleUow.Repositories },
          begunTrace ++ [Event.rollback 1 (some errRb)]) ∧
    ({ DB := some 7, Tx := some 1, Repositories := idleUow.Repositories } : Uow).Tx ≠ none :=
  ⟨rfl, rfl, rfl, by simp⟩

/-- C8, amended: when the unit-of-work function returns an error, `Do` returns an
error; the coordinator ends Idle when the rollback that `Do` attempts succeeds,
and when that rollback fails the coordinator is left exactly as the function
left it, its handle not cleared. -/
theorem Do_fn_error_final_state (d : Driver) (ctx : Context) (u : Uow) (t : Trace)
    (fn : UnitOfWork) (db : DBRef) (tx : TxId) (E : GoError) (u2 : Uow) (t2 : Trace)
    (hidle : u.Tx = none) (hdb : u.DB = some db)
    (hbegin : d.BeginTx db ctx t = .ok tx)
    (hfn : fn { u with Tx := some tx } (t ++ [Event.beginTx db ctx (.ok tx), Event.invoke])
      = .ret (some E, u2, t2)) :
    ∃ e u3 t3, Do d ctx u t fn = .ret (some e, u3, t3) ∧
      ((Rollback d u2 t2).1 = none → u3.Tx = none) ∧
      ((Rollback d u2 t2).1 ≠ none → u3 = u2) := by
  rw [Do_begun d ctx u t fn db tx hidle hdb hbegin, hfn]
  have hst := Rollback_state d u2 t2
  rcases hr : Rollback d u2 t2 with ⟨r, u3, t3⟩
  rw [hr] at hst
  cases r with
  | none => exact ⟨E, u3, t3, by simp only [hr], hst.1, hst.2⟩
  | some R => exact ⟨errorsNew (sprintfRollback R E), u3, t3, by simp only [hr], hst.1, hst.2⟩

/-- C8, amended, at a concrete run in which the rollback fails. -/
theorem Do_fn_error_final_state_witness :
    ∃ e u3 t3, Do (scriptedDriver none (some errRb)) 0 idleUow [] (fnReturn (some errApp))
        = .ret (some e, u3, t3) ∧
      ((Rollback (scriptedDriver none (some errRb)) activeUow begunTrace).1 = none →
        u3.Tx = none) ∧
      ((Rollback (scriptedDriver none (some errRb)) activeUow begunTrace).1 ≠ none →
        u3 = activeUow) :=
  Do_fn_error_final_state (scriptedDriver none (some errRb)) 0 idleUow []
    (fnReturn (some errApp)) 7 1 errApp activeUow begunTrace rfl rfl rfl rfl

/-- C9: `Rollback` on an Idle coordinator fails with the "no transaction started"
error, adds nothing to the history (no rollback reaches the store) and leaves
the coordinator (handle, registry, pool) unchanged. -/
theorem Rollback_idle (d : Driver) (u : Uow) (t : Trace) (hidle : u.Tx = none) :
    Rollback d u t = (some errNoTransactionStarted, u, t) := by
  simp only [Rollback, hidle]

/-- C9 at a concrete run, against a store whose rollback would have succeeded. -/
theorem Rollback_idle_witness :
    idleUow.Tx = none ∧
    Rollback (scriptedDriver none none) idleUow []
      = (some (.errorString "no transaction started"), idleUow, []) :=
  ⟨rfl, Rollback_idle (scriptedDriver none none) idleUow [] rfl⟩

/-- C10: on an Active coordinator, when the underlying rollback succeeds
`Rollback` returns nil and clears the handle; when it fails with R, `Rollback`
returns exactly R and the coordinator, its handle included, is as before. -/
theorem Rollback_active (d : Driver) (u : Uow) (t : Trace) (tx : TxId)
    (hactive : u.Tx = some tx) :
    (d.Rollback tx t = none →
      Rollback d u t = (none, { u with Tx := none }, t ++ [Event.rollback tx none])) ∧
    (∀ R, d.Rollback tx t = some R →
      Rollback d u t = (some R, u, t ++ [Event.rollback tx (some R)])) := by
  constructor
  · intro h
    simp only [Rollback, hactive, h]
  · intro R h
    simp only [Rollback, hactive, h]

/-- C10 at two concrete runs on transaction 1: a rollback that succeeds and one
that fails with `errRb`. -/
theorem Rollback_active_witness :
    activeUow.Tx = some 1 ∧
    Rollback (scriptedDriver none none) activeUow []
      = (none, idleUow, [Event.rollback 1 none]) ∧
    Rollback (scriptedDriver none (some errRb)) activeUow []
      = (some errRb, activeUow, [Event.rollback 1 (some errRb)]) :=
  ⟨rfl, (Rollback_active (scriptedDriver none none) activeUow [] 1 rfl).1 rfl,
    (Rollback_active (scriptedDriver none (some errRb)) activeUow [] 1 rfl).2 errRb rfl⟩

/-- Registry calls on a coordinator with a non-nil map never panic; they change
the map as `mapAfter` says and nothing else. -/
theorem applyCalls_ret (calls : List RegistryCall) :
    ∀ (u : Uow) (m : String → Option RepositoryFactory), u.Repositories = some m →
      applyCalls u calls = .ret { u with Repositories := some (mapAfter m calls) } := by
  induction calls with
  | nil =>
    intro u m h
    cases u
    simp only at h
    subst h
    rfl
  | cons c cs ih =>
    intro u m h
    cases c with
    | register name fc =>
      simp only [applyCalls, applyCall, Register, h]
      rw [ih _ (fun k => if k = name then some fc else m k) rfl]
      rfl
    | unRegister name =>
      simp only [applyCalls, applyCall, UnRegister, h]
      rw [ih _ (fun k => if k = name then none else m k) rfl]
      rfl

/-- Calls about other names leave the entry of `name` alone. -/
theorem mapAfter_other (name : String) (calls : List RegistryCall) :
    ∀ m : String → Option RepositoryFactory, (∀ c ∈ calls, c.key ≠ name) →
      mapAfter m calls name = m name := by
  induction calls with
  | nil => intro m _; rfl
  | cons c cs ih =>
    intro m h
    have hc : c.key ≠ name := h c (List.mem_cons_self _ _)
    have hcs : ∀ c ∈ cs, c.key ≠ name := fun c hm => h c (List.mem_cons_of_mem _ hm)
    cases c with
    | register n fc =>
      have hn : name ≠ n := fun e => hc e.symm
      simp only [mapAfter]
      rw [ih _ hcs]
      simp [hn]
    | unRegister n =>
      have hn : name ≠ n := fun e => hc e.symm
      simp only [mapAfter]
      rw [ih _ hcs]
      simp [hn]

/-- Running two sequences of calls one after the other. -/
theorem mapAfter_append (a b : List RegistryCall) :
    ∀ m : String → Option RepositoryFactory, mapAfter m (a ++ b) = mapAfter (mapAfter m a) b := by
  induction a with
  | nil => intro m; rfl
  | cons c cs ih =>
    intro m
    cases c with
    | register n fc => exact ih _
    | unRegister n => exact ih _

/-- An entry survives calls that do not unregister its name. -/
theorem mapAfter_isSome (name : String) (calls : List RegistryCall) :
    ∀ m : String → Option RepositoryFactory, (m name).isSome = true →
      (∀ c ∈ calls, ∀ n, c = RegistryCall.unRegister n → n ≠ name) →
      (mapAfter m calls name).isSome = true := by
  induction calls with
  | nil => intro m hm _; exact hm
  | cons c cs ih =>
    intro m hm h
    have hcs : ∀ c ∈ cs, ∀ n, c = RegistryCall.unRegister n → n ≠ name :=
      fun c hc => h c (List.mem_cons_of_mem _ hc)
    cases c with
    | register n fc =>
      simp only [mapAfter]
      apply ih _ _ hcs
      by_cases hn : name = n <;> simp [hn, hm]
    | unRegister n =>
      have hn : name ≠ n := fun e => h _ (List.mem_cons_self _ _) n rfl e.symm
      simp only [mapAfter]
      apply ih _ _ hcs
      simp [hn, hm]

/-- The factory in force for a name is the one found in the map. -/
theorem mapAfter_inForce (name : String) (calls : List RegistryCall) (fc : RepositoryFactory)
    (m : String → Option RepositoryFactory) (h : InForce calls name fc) :
    mapAfter m calls name = some fc := by
  obtain ⟨pre, post, hcalls, hpost⟩ := h
  rw [hcalls, mapAfter_append]
  simp only [mapAfter]
  rw [mapAfter_other name post _ hpost]
  simp

/-- What is found in the map was put there by the calls or was there before. -/
theorem mapAfter_some (name : String) (fc : RepositoryFactory) (calls : List RegistryCall) :
    ∀ m : String → Option RepositoryFactory, mapAfter m calls name = some fc →
      InForce calls name fc ∨ (m name = some fc ∧ ∀ c ∈ calls, c.key ≠ name) := by
  induction calls with
  | nil => intro m h; exact Or.inr ⟨h, by simp⟩
  | cons c cs ih =>
    intro m h
    have lift : InForce cs name fc → InForce (c :: cs) name fc := by
      rintro ⟨pre, post, hcs, hpost⟩
      exact ⟨c :: pre, post, by simp [hcs], hpost⟩
    cases c with
    | register n g =>
      simp only [mapAfter] at h
      rcases ih _ h with hin | ⟨hm, hfree⟩
      · exact Or.inl (lift hin)
      · by_cases hn : name = n
        · subst hn
          simp only [if_true, Option.some.injEq] at hm
          subst hm
          exact Or.inl ⟨[], cs, rfl, hfree⟩
        · simp only [hn, if_false] at hm
          refine Or.inr ⟨hm, ?_⟩
          intro c hc
          rcases List.mem_cons.mp hc with rfl | hc
          · exact fun e => hn e.symm
          · exact hfree c hc
    | unRegister n =>
      simp only [mapAfter] at h
      rcases ih _ h with hin | ⟨hm, hfree⟩
      · exact Or.inl (lift hin)
      · by_cases hn : name = n
        · simp [hn] at hm
        · simp only [hn, if_false] at hm
          refine Or.inr ⟨hm, ?_⟩
          intro c hc
          rcases List.mem_cons.mp hc with rfl | hc
          · exact fun e => hn e.symm
          · exact hfree c hc

/-- On a map that starts empty, a name has an entry exactly when it was
registered and not since unregistered. -/
theorem mapAfter_empty_isSome (name : String) (calls : List RegistryCall) :
    (mapAfter (fun _ => none) calls name).isSome = true ↔ RegisteredNotSince calls name := by
  constructor
  · intro h
    obtain ⟨fc, hfc⟩ := Option.isSome_iff_exists.mp h
    rcases mapAfter_some name fc calls _ hfc with ⟨pre, post, hcalls, hpost⟩ | ⟨hm, _⟩
    · refine ⟨pre, fc, post, hcalls, ?_⟩
      intro c hc n hcn hn
      apply hpost c hc
      rw [hcn]
      exact hn
    · simp at hm
  · rintro ⟨pre, fc, post, hcalls, hpost⟩
    rw [hcalls, mapAfter_append]
    simp only [mapAfter]
    exact mapAfter_isSome name post _ (by simp) hpost

/-- C6: starting from a freshly built coordinator, every sequence of
Register/UnRegister calls returns, and on any coordinator holding the resulting
registry `GetRepository(name)` succeeds if and only if `name` was registered and
not since unregistered and a transaction is Active; on success the result is the
factory in force for `name` applied to the current handle; for a name that is
not registered it fails with the RepositoryNotRegistered error, and for a
registered name on an Idle coordinator it fails with the "no transaction
started" error. -/
theorem GetRepository_iff_registered (calls : List RegistryCall) (ctx0 : Context)
    (db : Option DBRef) (name : String) :
    ∃ u0, applyCalls (NewUow ctx0 db) calls = .ret u0 ∧
      ∀ (u : Uow) (ctx : Context), u.Repositories = u0.Repositories →
        ((∃ r, GetRepository u ctx name = .ok r) ↔
          (RegisteredNotSince calls name ∧ u.Tx ≠ none)) ∧
        (∀ r, GetRepository u ctx name = .ok r →
          ∃ fc tx, InForce calls name fc ∧ u.Tx = some tx ∧ r = fc (some tx)) ∧
        (∀ fc tx, InForce calls name fc → u.Tx = some tx →
          GetRepository u ctx name = .ok (fc (some tx))) ∧
        (¬ RegisteredNotSince calls name →
          GetRepository u ctx name = .error errRepositoryNotRegistered) ∧
        (RegisteredNotSince calls name → u.Tx = none →
          GetRepository u ctx name = .error errNoTransactionStarted) := by
  refine ⟨{ NewUow ctx0 db with Repositories := some (mapAfter (fun _ => none) calls) },
    applyCalls_ret calls _ _ rfl, ?_⟩
  intro u ctx hrep
  simp only at hrep
  have key := mapAfter_empty_isSome name calls
  cases hm : mapAfter (fun _ => none) calls name with
  | none =>
    have hnot : ¬ RegisteredNotSince calls name := by
      rw [← key, hm]
      simp
    have hget : GetRepository u ctx name = .error errRepositoryNotRegistered := by
      simp only [GetRepository, hrep, hm]
    refine ⟨?_, ?_, ?_, fun _ => hget, fun h => absurd h hnot⟩
    · rw [hget]
      constructor
      · rintro ⟨r, hr⟩
        cases hr
      · rintro ⟨h, _⟩
        exact absurd h hnot
    · intro r hr
      rw [hget] at hr
      cases hr
    · intro fc tx hin _
      rw [mapAfter_inForce name calls fc _ hin] at hm
      cases hm
  | some fc =>
    have hreg : RegisteredNotSince calls name := by
      rw [← key, hm]
      rfl
    have hin : InForce calls name fc := by
      rcases mapAfter_some name fc calls _ hm with h | ⟨h, _⟩
      · exact h
      · simp at h
    cases htx : u.Tx with
    | none =>
      have hget : GetRepository u ctx name = .error errNoTransactionStarted := by
        simp only [GetRepository, hrep, hm, htx]
      refine ⟨?_, ?_, ?_, fun h => absurd hreg h, fun _ _ => hget⟩
      · rw [hget]
        constructor
        · rintro ⟨r, hr⟩
          cases hr
        · rintro ⟨_, h⟩
          exact absurd rfl h
      · intro r hr
        rw [hget] at hr
        cases hr
      · intro g tx _ h
        cases h
    | some tx =>
      have hget : GetRepository u ctx name = .ok (fc (some tx)) := by
        simp only [GetRepository, hrep, hm, htx]
      refine ⟨?_, ?_, ?_, fun h => absurd hreg h, fun _ h => by cases h⟩
      · rw [hget]
        exact ⟨fun _ => ⟨hreg, by simp⟩, fun _ => ⟨_, rfl⟩⟩
      · intro r hr
        rw [hget] at hr
        cases hr
        exact ⟨fc, tx, hin, rfl, rfl⟩
      · intro g tx2 hg h
        cases h
        rw [mapAfter_inForce name calls g _ hg] at hm
        cases hm
        exact hget

/-- C6 at a concrete run: after `sampleCalls`, with transaction 1 open, "users"
resolves to `usersFactory` applied to the handle, and "orders", unregistered by
the last call, is refused. -/
theorem GetRepository_iff_registered_witness :
    InForce sampleCalls "users" usersFactory ∧
    GetRepository sampleUow 0 "users" = .ok 101 ∧
    ¬ RegisteredNotSince sampleCalls "orders" ∧
    GetRepository sampleUow 0 "orders" = .error errRepositoryNotRegistered := by
  have hin : InForce sampleCalls "users" usersFactory :=
    ⟨[.register "users" ordersFactory, .register "orders" ordersFactory],
      [.unRegister "orders"], rfl, by simp [RegistryCall.key]⟩
  have hno : ¬ RegisteredNotSince sampleCalls "orders" := by
    rw [← mapAfter_empty_isSome]
    simp [sampleCalls, mapAfter]
  obtain ⟨u0, hrun, h⟩ := GetRepository_iff_registered sampleCalls 0 (some 7) "users"
  obtain ⟨v0, hrun2, h2⟩ := GetRepository_iff_registered sampleCalls 0 (some 7) "orders"
  rw [applyCalls_ret sampleCalls _ _ rfl] at hrun hrun2
  cases hrun
  cases hrun2
  exact ⟨hin, (h sampleUow 0 rfl).2.2.1 usersFactory 1 hin rfl, hno,
    (h2 sampleUow 0 rfl).2.2.2.1 hno⟩

/-- C11: on an Idle coordinator whose pool fails to begin a transaction with
error B, `Do` returns exactly B whatever the unit-of-work function is; the only
event added to the history is the failed BeginTx (the function is not called, no
Commit, no Rollback), and the coordinator is handed back as it was: Idle, with
the same registry. -/
theorem Do_begin_fails (d : Driver) (ctx : Context) (u : Uow) (t : Trace) (fn : UnitOfWork)
    (db : DBRef) (B : GoError)
    (hidle : u.Tx = none) (hdb : u.DB = some db)
    (hbegin : d.BeginTx db ctx t = .error B) :
    Do d ctx u t fn = .ret (some B, u, t ++ [Event.beginTx db ctx (.error B)]) := by
  simp only [Do, hidle, hdb, hbegin]

/-- C11 at a concrete run: the pool answers `errConn`, and the function given
would panic if it were called. -/
theorem Do_begin_fails_witness :
    idleUow.Tx = none ∧
    Do (refusingDriver errConn) 0 idleUow [] (fun _ _ => .panics "called")
      = .ret (some errConn, idleUow, [Event.beginTx 7 0 (.error errConn)]) :=
  ⟨rfl, Do_begin_fails (refusingDriver errConn) 0 idleUow [] (fun _ _ => .panics "called")
    7 errConn rfl rfl rfl⟩

/-- C12, as stated, fails: two different pairs of errors give the same combined
error, so the pair cannot be read back from it. -/
theorem combined_error_collision :
    errorsNew (sprintfRollback (.errorString "a, original error: b") (.errorString "c"))
      = errorsNew (sprintfRollback (.errorString "a") (.errorString "b, original error: c")) ∧
    ¬ ((GoError.errorString "c" = GoError.errorString "b, original error: c") ∧
       (GoError.errorString "a, original error: b" = GoError.errorString "a")) :=
  ⟨by decide, by decide⟩

/-- C12, amended: the combined error carries the messages of both errors as
text, so neither message is lost, and of two equal combined errors whose
rollback errors have the same message the triggering errors have the same
message. -/
theorem combined_error_messages (R1 E1 R2 E2 : GoError)
    (h : errorsNew (sprintfRollback R1 E1) = errorsNew (sprintfRollback R2 E2))
    (hR : R1.Error = R2.Error) :
    (errorsNew (sprintfRollback R1 E1)).mentions R1 ∧
    (errorsNew (sprintfRollback R1 E1)).mentions E1 ∧
    E1.Error = E2.Error := by
  refine ⟨sprintfRollback_has_rollback R1 E1, sprintfRollback_has_original R1 E1, ?_⟩
  have hs : sprintfRollback R1 E1 = sprintfRollback R2 E2 := by
    simpa [errorsNew] using h
  have hd := congrArg String.data hs
  simp only [sprintfRollback, String.data_append, hR, List.append_assoc] at hd
  have hd2 := List.append_cancel_left (List.append_cancel_left (List.append_cancel_left hd))
  exact String.ext hd2

/-- C12, amended, at a concrete pair: error values that differ and read the same. -/
theorem combined_error_messages_witness :
    (errorsNew (sprintfRollback errRb errApp)).mentions errRb ∧
    (errorsNew (sprintfRollback errRb errApp)).mentions errApp ∧
    errApp.Error = (GoError.errorString "insert failed").Error :=
  combined_error_messages errRb errApp (.custom 9 "conn lost") (.errorString "insert failed")
    rfl rfl

/-- Writing back an entry that reads the same leaves a map as it was. -/
theorem map_erase_absent (m : String → Option RepositoryFactory) (name : String)
    (h : m name = none) : (fun k => if k = name then none else m k) = m := by
  funext k
  by_cases hk : k = name
  · simp [hk, h]
  · simp [hk]

/-- C13: on a coordinator that has a registry (a non-nil map, as `NewUow`
builds), `Register(name, fc)` returns, and afterwards `name` maps to `fc`
whatever was stored before, every other name maps to what it mapped to before,
and the handle and the pool reference are unchanged; a second `Register` under
the same name leaves `name` mapped to the second factory. -/
theorem Register_last_write_wins (u : Uow) (m : String → Option RepositoryFactory)
    (name : String) (fc g : RepositoryFactory) (hreg : u.Repositories = some m) :
    ∃ u1, Register u name fc = .ret u1 ∧
      u1.entry name = some fc ∧
      (∀ k, k ≠ name → u1.entry k = u.entry k) ∧
      u1.Tx = u.Tx ∧ u1.DB = u.DB ∧
      ∃ u2, Register u1 name g = .ret u2 ∧ u2.entry name = some g ∧
        (∀ k, k ≠ name → u2.entry k = u.entry k) ∧ u2.Tx = u.Tx ∧ u2.DB = u.DB := by
  refine ⟨{ u with Repositories := some (fun k => if k = name then some fc else m k) },
    by simp only [Register, hreg], by simp [Uow.entry], ?_, rfl, rfl, ?_⟩
  · intro k hk
    simp [Uow.entry, hreg, hk]
  · refine ⟨_, rfl, by simp [Uow.entry], ?_, rfl, rfl⟩
    intro k hk
    simp [Uow.entry, hreg, hk]

/-- C13 at a concrete run: on a freshly built coordinator "users" is registered
twice and ends mapped to the second factory. -/
theorem Register_last_write_wins_witness :
    ∃ u1, Register idleUow "users" ordersFactory = .ret u1 ∧
      u1.entry "users" = some ordersFactory ∧
      (∀ k, k ≠ "users" → u1.entry k = idleUow.entry k) ∧
      u1.Tx = idleUow.Tx ∧ u1.DB = idleUow.DB ∧
      ∃ u2, Register u1 "users" usersFactory = .ret u2 ∧ u2.entry "users" = some usersFactory ∧
        (∀ k, k ≠ "users" → u2.entry k = idleUow.entry k) ∧
        u2.Tx = idleUow.Tx ∧ u2.DB = idleUow.DB :=
  Register_last_write_wins idleUow (fun _ => none) "users" ordersFactory usersFactory rfl

/-- C14: `UnRegister(name)` removes the entry of `name` and nothing else: other
entries, the handle and the pool reference are unchanged; when `name` had no
entry the coordinator is exactly as before; doing it twice is doing it once;
and after `Register(name, fc)` on a registry without `name` (which returns
whenever the map is non-nil) it restores the original coordinator. -/
theorem UnRegister_removes (u : Uow) (name : String) :
    (UnRegister u name).entry name = none ∧
    (∀ k, k ≠ name → (UnRegister u name).entry k = u.entry k) ∧
    (UnRegister u name).Tx = u.Tx ∧ (UnRegister u name).DB = u.DB ∧
    (u.entry name = none → UnRegister u name = u) ∧
    UnRegister (UnRegister u name) name = UnRegister u name ∧
    (∀ fc u1, u.entry name = none → Register u name fc = .ret u1 → UnRegister u1 name = u) ∧
    (∀ fc, u.Repositories ≠ none → ∃ u1, Register u name fc = .ret u1) := by
  obtain ⟨db, tx, reg⟩ := u
  cases reg with
  | none =>
    refine ⟨rfl, fun _ _ => rfl, rfl, rfl, fun _ => rfl, rfl, ?_, ?_⟩
    · intro fc u1 _ h
      simp [Register] at h
    · intro fc h
      exact absurd rfl h
  | some m =>
    refine ⟨by simp [UnRegister, Uow.entry], ?_, rfl, rfl, ?_, ?_, ?_, ?_⟩
    · intro k hk
      simp [UnRegister, Uow.entry, hk]
    · intro h
      simp only [Uow.entry] at h
      simp only [UnRegister, map_erase_absent m name h]
    · simp only [UnRegister]
      rw [map_erase_absent _ name (by simp)]
    · intro fc u1 h hr
      simp only [Uow.entry] at h
      simp only [Register, Result.ret.injEq] at hr
      subst hr
      simp only [UnRegister]
      have : (fun k => if k = name then none else if k = name then some fc else m k) = m := by
        funext k
        by_cases hk : k = name
        · simp [hk, h]
        · simp [hk]
      rw [this]
    · intro fc _
      exact ⟨_, rfl⟩

/-- C14 at a concrete run: "orders" is registered on a freshly built coordinator
and unregistered again, which gives the freshly built coordinator back. -/
theorem UnRegister_removes_witness :
    idleUow.entry "orders" = none ∧
    UnRegister idleUow "orders" = idleUow ∧
    ∃ u1, Register idleUow "orders" ordersFactory = .ret u1 ∧ UnRegister u1 "orders" = idleUow :=
  ⟨rfl, (UnRegister_removes idleUow "orders").2.2.2.2.1 rfl,
    _, rfl,
    (UnRegister_removes idleUow "orders").2.2.2.2.2.2.1 ordersFactory _ rfl rfl⟩

/-- Events that are neither a `Commit` nor a `Rollback` count for nothing. -/
theorem count_no_commit_rollback (ext : Trace)
    (h : ∀ ev ∈ ext, ev.isCommit = false ∧ ev.isRollback = false) :
    ext.countP Event.isCommit = 0 ∧ ext.countP Event.isRollback = 0 := by
  constructor
  · rw [List.countP_eq_zero]
    intro ev hev
    simp [(h ev hev).1]
  · rw [List.countP_eq_zero]
    intro ev hev
    simp [(h ev hev).2]

/-- C15: on an Idle coordinator whose BeginTx succeeds, with a unit-of-work
function that returns the error E and itself calls neither Commit nor Rollback:
`Do` returns an error, what `Do` adds to the history holds exactly one
`Rollback`, issued on the begun transaction, and no `Commit`, and when that
rollback succeeds the error returned is exactly E. -/
theorem Do_fn_error_rollback_once (d : Driver) (ctx : Context) (u : Uow) (t : Trace)
    (fn : UnitOfWork) (db : DBRef) (tx : TxId) (E : GoError) (u2 : Uow) (t2 : Trace)
    (hidle : u.Tx = none) (hdb : u.DB = some db)
    (hbegin : d.BeginTx db ctx t = .ok tx)
    (hcalls : NoOwnCommitRollback fn)
    (hfn : fn { u with Tx := some tx } (t ++ [Event.beginTx db ctx (.ok tx), Event.invoke])
      = .ret (some E, u2, t2)) :
    ∃ e u3 ext, Do d ctx u t fn = .ret (some e, u3, t ++ ext) ∧
      ext.countP Event.isRollback = 1 ∧
      Event.rollback tx (d.Rollback tx t2) ∈ ext ∧
      ext.countP Event.isCommit = 0 ∧
      (d.Rollback tx t2 = none → e = E) := by
  obtain ⟨htx, ext0, ht2, hno⟩ := hcalls _ _ _ _ _ hfn
  simp only at htx
  obtain ⟨hc0, hr0⟩ := count_no_commit_rollback ext0 hno
  rw [Do_begun d ctx u t fn db tx hidle hdb hbegin, hfn]
  cases hr : d.Rollback tx t2 with
  | none =>
    refine ⟨E, { u2 with Tx := none },
      [Event.beginTx db ctx (.ok tx), Event.invoke] ++ ext0 ++ [Event.rollback tx none],
      ?_, ?_, by simp, ?_, fun _ => rfl⟩
    · simp only [Rollback, htx, hr]
      rw [ht2]
      simp only [List.append_assoc]
    · simp [List.countP_append, hr0, List.countP_cons, Event.isRollback]
    · simp [List.countP_append, hc0, List.countP_cons, Event.isCommit]
  | some R =>
    refine ⟨errorsNew (sprintfRollback R E), u2,
      [Event.beginTx db ctx (.ok tx), Event.invoke] ++ ext0 ++ [Event.rollback tx (some R)],
      ?_, ?_, by simp, ?_, fun h => by cases h⟩
    · simp only [Rollback, htx, hr]
      rw [ht2]
      simp only [List.append_assoc]
    · simp [List.countP_append, hr0, List.countP_cons, Event.isRollback]
    · simp [List.countP_append, hc0, List.countP_cons, Event.isCommit]

/-- A function that touches nothing calls neither Commit nor Rollback. -/
theorem fnReturn_noOwnCommitRollback (e : Option GoError) :
    NoOwnCommitRollback (fnReturn e) := by
  intro u t r u2 t2 h
  simp only [fnReturn, Result.ret.injEq, Prod.mk.injEq] at h
  exact ⟨by rw [h.2.1], [], by simp [h.2.2], by simp⟩

/-- C15 at a concrete run: the function fails with `errApp`, the rollback of
transaction 1 succeeds. -/
theorem Do_fn_error_rollback_once_witness :
    NoOwnCommitRollback (fnReturn (some errApp)) ∧
    ∃ e u3 ext, Do (scriptedDriver none none) 0 idleUow [] (fnReturn (some errApp))
        = .ret (some e, u3, [] ++ ext) ∧
      ext.countP Event.isRollback = 1 ∧
      Event.rollback 1 ((scriptedDriver none none).Rollback 1 begunTrace) ∈ ext ∧
      ext.countP Event.isCommit = 0 ∧
      ((scriptedDriver none none).Rollback 1 begunTrace = none → e = errApp) :=
  ⟨fnReturn_noOwnCommitRollback (some errApp),
    Do_fn_error_rollback_once (scriptedDriver none none) 0 idleUow [] (fnReturn (some errApp))
      7 1 errApp activeUow begunTrace rfl rfl rfl
      (fnReturn_noOwnCommitRollback (some errApp)) rfl⟩

/-- C16: on an Idle coordinator whose BeginTx succeeds, with a unit-of-work
function that returns nil and itself calls neither Commit nor Rollback: when
Commit succeeds, `Do` returns nil, and what `Do` adds to the history holds
exactly one `Commit`, issued on the begun transaction, and no `Rollback`. -/
theorem Do_commit_once (d : Driver) (ctx : Context) (u : Uow) (t : Trace)
    (fn : UnitOfWork) (db : DBRef) (tx : TxId) (u2 : Uow) (t2 : Trace)
    (hidle : u.Tx = none) (hdb : u.DB = some db)
    (hbegin : d.BeginTx db ctx t = .ok tx)
    (hcalls : NoOwnCommitRollback fn)
    (hfn : fn { u with Tx := some tx } (t ++ [Event.beginTx db ctx (.ok tx), Event.invoke])
      = .ret (none, u2, t2))
    (hcommit : d.Commit tx t2 = none) :
    ∃ u3 ext, Do d ctx u t fn = .ret (none, u3, t ++ ext) ∧
      ext.countP Event.isCommit = 1 ∧
      Event.commit tx none ∈ ext ∧
      ext.countP Event.isRollback = 0 := by
  obtain ⟨htx, ext0, ht2, hno⟩ := hcalls _ _ _ _ _ hfn
  simp only at htx
  obtain ⟨hc0, hr0⟩ := count_no_commit_rollback ext0 hno
  rw [Do_begun d ctx u t fn db tx hidle hdb hbegin, hfn]
  refine ⟨{ u2 with Tx := none },
    [Event.beginTx db ctx (.ok tx), Event.invoke] ++ ext0 ++ [Event.commit tx none],
    ?_, ?_, by simp, ?_⟩
  · simp only [CommitOrRollback, htx, hcommit]
    rw [ht2]
    simp only [List.append_assoc]
  · simp [List.countP_append, hc0, List.countP_cons, Event.isCommit]
  · simp [List.countP_append, hr0, List.countP_cons, Event.isRollback]

/-- C16 at a concrete run: the function does nothing and returns nil, the commit
of transaction 1 succeeds. -/
theorem Do_commit_once_witness :
    NoOwnCommitRollback (fnReturn none) ∧
    ∃ u3 ext, Do (scriptedDriver none none) 0 idleUow [] (fnReturn none)
        = .ret (none, u3, [] ++ ext) ∧
      ext.countP Event.isCommit = 1 ∧
      Event.commit 1 none ∈ ext ∧
      ext.countP Event.isRollback = 0 :=
  ⟨fnReturn_noOwnCommitRollback none,
    Do_commit_once (scriptedDriver none none) 0 idleUow [] (fnReturn none)
      7 1 activeUow begunTrace rfl rfl rfl (fnReturn_noOwnCommitRollback none) rfl rfl⟩

/-- C17, at the failing input: on a freshly built coordinator whose BeginTx
succeeds, the function rolls back through the coordinator (successfully) and
returns nil; the handle it hands back is nil, `CommitOrRollback` on that state
dereferences it, and `Do` panics. -/
theorem Do_nil_handle_after_fn_rollback :
    idleUow.Tx = none ∧
    fnRollbackThenNil (scriptedDriver none none) activeUow begunTrace
      = .ret (none, idleUow, begunTrace ++ [Event.rollback 1 none]) ∧
    CommitOrRollback (scriptedDriver none none) idleUow (begunTrace ++ [Event.rollback 1 none])
      = .panics "invalid memory address or nil pointer dereference" ∧
    Do (scriptedDriver none none) 0 idleUow [] (fnRollbackThenNil (scriptedDriver none none))
      = .panics "invalid memory address or nil pointer dereference" :=
  ⟨rfl, rfl, rfl, rfl⟩

/-- The method `Rollback` hands back the registry it was given. -/
theorem Rollback_registry (d : Driver) (u : Uow) (t : Trace) :
    (Rollback d u t).2.1.Repositories = u.Repositories := by
  cases htx : u.Tx with
  | none => simp [Rollback, htx]
  | some tx => cases hr : d.Rollback tx t <;> simp [Rollback, htx, hr]

/-- The method `CommitOrRollback`, when it returns, hands back the registry it
was given. -/
theorem CommitOrRollback_registry (d : Driver) (u : Uow) (t : Trace) (r : Ret)
    (h : CommitOrRollback d u t = .ret r) : r.2.1.Repositories = u.Repositories := by
  cases htx : u.Tx with
  | none => simp [CommitOrRollback, htx] at h
  | some tx =>
    cases hc : d.Commit tx t with
    | none =>
      simp only [CommitOrRollback, htx, hc, Result.ret.injEq] at h
      rw [← h]
    | some err =>
      have hreg := Rollback_registry d u (t ++ [Event.commit tx (some err)])
      simp only [CommitOrRollback, htx, hc] at h
      rcases hrb : Rollback d u (t ++ [Event.commit tx (some err)]) with ⟨e, u1, t1⟩
      rw [hrb] at h hreg
      cases e <;> simp only [Result.ret.injEq] at h <;> rw [← h] <;> exact hreg

/-- The method `Do`, when it returns, hands back the registry it was given,
provided the unit-of-work function does. -/
theorem Do_registry (d : Driver) (ctx : Context) (u : Uow) (t : Trace) (fn : UnitOfWork)
    (r : Ret) (hfn : KeepsRegistry fn) (h : Do d ctx u t fn = .ret r) :
    r.2.1.Repositories = u.Repositories := by
  cases htx : u.Tx with
  | some tx =>
    simp only [Do, htx, Result.ret.injEq] at h
    rw [← h]
  | none =>
    cases hdb : u.DB with
    | none => simp [Do, htx, hdb] at h
    | some db =>
      cases hb : d.BeginTx db ctx t with
      | error err =>
        simp only [Do, htx, hdb, hb, Result.ret.injEq] at h
        rw [← h]
      | ok tx =>
        rw [Do_begun d ctx u t fn db tx htx hdb hb] at h
        cases hf : fn { u with Tx := some tx }
            (t ++ [Event.beginTx db ctx (.ok tx), Event.invoke]) with
        | panics reason => simp [hf] at h
        | ret out =>
          obtain ⟨e, u2, t2⟩ := out
          have hkeep : u2.Repositories = u.Repositories :=
            hfn { u with Tx := some tx } _ _ _ _ hf
          rw [hf] at h
          cases e with
          | some err =>
            have hreg := Rollback_registry d u2 t2
            simp only at h
            rcases hrb : Rollback d u2 t2 with ⟨e3, u3, t3⟩
            rw [hrb] at h hreg
            cases e3 <;> simp only [Result.ret.injEq] at h <;> rw [← h] <;>
              exact hreg.trans hkeep
          | none =>
            exact (CommitOrRollback_registry d u2 t2 r h).trans hkeep

/-- C18: the transaction-lifecycle operations leave the factory registry as it
was, whatever the store answers: after `Rollback`, after `CommitOrRollback`
(which returns whenever a handle is in place), and after `Do` with a
unit-of-work function that calls neither Register nor UnRegister; so the
registry is still the same after two successive units of work. -/
theorem lifecycle_keeps_registry (d : Driver) (u : Uow) (t : Trace) :
    (Rollback d u t).2.1.Repositories = u.Repositories ∧
    (∀ r, CommitOrRollback d u t = .ret r → r.2.1.Repositories = u.Repositories) ∧
    (u.Tx ≠ none → ∃ r, CommitOrRollback d u t = .ret r) ∧
    (∀ ctx fn r, KeepsRegistry fn → Do d ctx u t fn = .ret r →
      r.2.1.Repositories = u.Repositories) ∧
    (∀ ctx fn1 fn2 r1 r2, KeepsRegistry fn1 → KeepsRegistry fn2 →
      Do d ctx u t fn1 = .ret r1 → Do d ctx r1.2.1 r1.2.2 fn2 = .ret r2 →
      r2.2.1.Repositories = u.Repositories) := by
  refine ⟨Rollback_registry d u t, CommitOrRollback_registry d u t, ?_,
    fun ctx fn r hfn h => Do_registry d ctx u t fn r hfn h, ?_⟩
  · intro htx
    cases hx : u.Tx with
    | none => exact absurd hx htx
    | some tx =>
      cases hc : d.Commit tx t with
      | none => exact ⟨_, by simp only [CommitOrRollback, hx, hc]; rfl⟩
      | some err =>
        rcases hrb : Rollback d u (t ++ [Event.commit tx (some err)]) with ⟨e, u1, t1⟩
        cases e with
        | none => exact ⟨_, by simp only [CommitOrRollback, hx, hc, hrb]; rfl⟩
        | some rb => exact ⟨_, by simp only [CommitOrRollback, hx, hc, hrb]; rfl⟩
  · intro ctx fn1 fn2 r1 r2 h1 h2 hd1 hd2
    exact (Do_registry d ctx _ _ fn2 r2 h2 hd2).trans (Do_registry d ctx u t fn1 r1 h1 hd1)

/-- C18 at a concrete run: a coordinator holding the registry left by
`sampleCalls` runs a unit of work that commits; the registry is the same
afterwards. -/
theorem lifecycle_keeps_registry_witness :
    KeepsRegistry (fnReturn none) ∧
    Do (scriptedDriver none none) 0 { sampleUow with Tx := none } [] (fnReturn none)
      = .ret (none, { sampleUow with Tx := none }, begunTrace ++ [Event.commit 1 none]) ∧
    ({ sampleUow with Tx := none } : Uow).Repositories = sampleUow.Repositories :=
  have hfn : KeepsRegistry (fnReturn none) := by
    intro u t e u2 t2 h
    simp only [fnReturn, Result.ret.injEq, Prod.mk.injEq] at h
    rw [h.2.1]
  ⟨hfn, rfl,
    (lifecycle_keeps_registry (scriptedDriver none none) { sampleUow with Tx := none } []).2.2.2.1
      0 (fnReturn none) _ hfn rfl⟩

end GoUow
